import Mathlib

/-!
# rider2nvim: the argument parser, the dispatcher and the registry protocol

A shallow embedding of `main.go`.  Go strings are modelled by `String`, Go's
`int` by `Int` (the only integers the program holds come out of `strconv.Atoi`,
which range-checks them, so no arithmetic can overflow), `*int` by `Option Int`
and an `error` by its message.
-/

namespace Rider2Nvim

/-! ## Library functions the program calls -/

/-- Number of bits of Go's `int` on the platforms the tool targets. -/
def intSize : Nat := 64

/-- The digit loop of `strconv.ParseUint` in base 10, without its overflow
check: every byte must be one of `0` .. `9`; the value is accumulated most
significant digit first. -/
def parseDigits : List Char → Nat → Option Nat
  | [], n => some n
  | c :: cs, n =>
    if '0' ≤ c ∧ c ≤ '9' then parseDigits cs (n * 10 + (c.toNat - '0'.toNat)) else none

/-- The unbounded value of a decimal integer literal: an optional sign `+` or
`-` followed by at least one decimal digit.  This is the syntax `strconv.Atoi`
accepts, before its range check. -/
def decimalValue (s : String) : Option Int :=
  match s.data with
  | [] => none
  | '-' :: ds => if ds = [] then none else (parseDigits ds 0).map (fun n => -(n : Int))
  | '+' :: ds => if ds = [] then none else (parseDigits ds 0).map (fun n => (n : Int))
  | ds => (parseDigits ds 0).map (fun n => (n : Int))

/-- Model of `strconv.Atoi`: a syntax error when the string is not a signed
decimal literal, a range error when its value does not fit in an `int`;
`none` stands for `err != nil`. -/
def Atoi (s : String) : Option Int :=
  match decimalValue s with
  | none => none
  | some n => if -(2 : Int) ^ (intSize - 1) ≤ n ∧ n < (2 : Int) ^ (intSize - 1) then some n else none

/-- Model of `strings.ToLower`, on the characters that matter for the suffix
test of `parseArgs`: the only runes whose lower case is one of `.`, `s`, `l`,
`n` are these four and `S`, `L`, `N`. -/
def toLower (s : String) : List Char := s.data.map Char.toLower

/-- The test `strings.HasSuffix(strings.ToLower(arg), ".sln")`. -/
def isSln (arg : String) : Bool := decide (".sln".data <:+ toLower arg)

/-! ## Data model -/

deriving instance DecidableEq for Except

/-- The struct `FileTarget`. -/
structure FileTarget where
  Line : Option Int
  Column : Option Int
  Filename : String
  deriving DecidableEq

/-- The loop-carried variables of `parseArgs`. -/
structure ParseState where
  fileTargets : List FileTarget
  line : Option Int
  column : Option Int
  deriving DecidableEq

/-! ## parseArgs -/

/-- The first `case` of the switch: `"--line", "-l"`. -/
def isLineFlag (arg : String) : Prop := arg = "--line" ∨ arg = "-l"

/-- The second `case` of the switch: `"--column", "-c"`. -/
def isColumnFlag (arg : String) : Prop := arg = "--column" ∨ arg = "-c"

/-- The third `case` of the switch: the tokens that are skipped. -/
def isInert (arg : String) : Prop :=
  arg = "nosplash" ∨ arg = "dontReopenProjects" ∨ arg = "disableNonBundledPlugins" ∨ arg = "--wait"

instance (arg : String) : Decidable (isLineFlag arg) := by unfold isLineFlag; infer_instance
instance (arg : String) : Decidable (isColumnFlag arg) := by unfold isColumnFlag; infer_instance
instance (arg : String) : Decidable (isInert arg) := by unfold isInert; infer_instance

/-- The `for` loop of `parseArgs`, run over the arguments not yet consumed. -/
def parseLoop : List String → ParseState → Except String ParseState
  | [], st => .ok st
  | arg :: rest, st =>
    if isLineFlag arg then
      match rest with
      | [] => .error ("no integer argument passed to " ++ arg)
      | v :: rest' =>
        match Atoi v with
        | none => .error ("invalid line number: " ++ v)
        | some n => parseLoop rest' (if 0 < n then { st with line := some n } else st)
    else if isColumnFlag arg then
      match rest with
      | [] => .error ("no integer argument passed to " ++ arg)
      | v :: rest' =>
        match Atoi v with
        | none => .error ("invalid column number: " ++ v)
        | some n => parseLoop rest' (if 0 < n then { st with column := some n } else st)
    else if isInert arg then
      parseLoop rest st
    else if isSln arg then
      parseLoop rest { st with line := none, column := none }
    else
      parseLoop rest
        { fileTargets := st.fileTargets ++ [{ Line := st.line, Column := st.column, Filename := arg }],
          line := none, column := none }

/-- The variables of `parseArgs` before the loop. -/
def initState : ParseState := { fileTargets := [], line := none, column := none }

/-- The function `parseArgs`, with `os.Args[1:]` as its parameter. -/
def parseArgs (args : List String) : Except String (List FileTarget) :=
  match parseLoop args initState with
  | .error e => .error e
  | .ok st => .ok st.fileTargets

/-! ## The dispatcher -/

/-- The verb `%d` of `fmt.Sprintf` on a non-negative value. -/
def formatNat (n : Nat) : String := String.mk (Nat.toDigits 10 n)

/-- The verb `%d` of `fmt.Sprintf`: decimal, with a leading `-` for a negative value. -/
def formatInt : Int → String
  | Int.ofNat n => formatNat n
  | Int.negSucc n => "-" ++ formatNat (n + 1)

/-- One iteration of the `for ... range fileTargets` loop of
`sendToExistingServer`: the arguments appended for the target `ft`. -/
def appendTarget (args : List String) (ft : FileTarget) : List String :=
  match ft.Line with
  | some l =>
    match ft.Column with
    | some c => args ++ ["--remote", "+" ++ formatInt l ++ ":" ++ formatInt c, ft.Filename]
    | none => args ++ ["--remote", "+" ++ formatInt l, ft.Filename]
  | none => args ++ ["--remote", ft.Filename]

/-- The argument vector `sendToExistingServer` hands to `exec.Command("nvim", args...)`. -/
def sendToExistingServerArgs (fileTargets : List FileTarget) (addr : String) : List String :=
  fileTargets.foldl appendTarget ([] ++ ["--server", addr])

/-- The segment the specification prescribes for one target: cursor at line and
column when both are present, at the line when only the line is present, no
position when the line is absent (a column without a line is dropped). -/
def specSegment (t : FileTarget) : List String :=
  match t.Line, t.Column with
  | some l, some c => ["--remote", "+" ++ formatInt l ++ ":" ++ formatInt c, t.Filename]
  | some l, none => ["--remote", "+" ++ formatInt l, t.Filename]
  | none, _ => ["--remote", t.Filename]

/-- The reference encoding of the specification: the server address followed by
one segment per target, in the order of the targets. -/
def specCommand (addr : String) (ts : List FileTarget) : List String :=
  ["--server", addr] ++ (ts.map specSegment).flatten

/-! ## The registry, the probe and the top level -/

/-- What the program does to the outside world, in the order it does it. -/
inductive Event where
  /-- The call `os.ReadFile(getServerFile())`. -/
  | readRegistry
  /-- The call `os.OpenFile(getServerFile(), O_WRONLY|O_CREATE|O_EXCL, 0600)`. -/
  | createRegistry (addr : String)
  /-- The call `os.Remove(getServerFile())`. -/
  | removeRegistry
  /-- The command `nvim --server addr --remote-expr 1`. -/
  | probe (addr : String)
  /-- The command `nvim --listen addr --headless`. -/
  | launch (addr : String)
  /-- The command `nvim args...` of `sendToExistingServer`. -/
  | dispatch (args : List String)
  /-- A message written to `os.Stderr`. -/
  | stderr (msg : String)
  /-- A message written to standard output. -/
  | stdout (msg : String)
  /-- The call `time.Sleep`, in milliseconds. -/
  | sleep (ms : Nat)
  deriving DecidableEq

/-- The registry file (`none` when it does not exist, its content otherwise)
and the trace of what the program has done so far. -/
structure World where
  registry : Option String
  trace : List Event
  deriving DecidableEq

/-- What the program cannot decide by itself: whether the k-th call of
`isServerRunning` finds the server answering, whether `cmd.Start()` succeeds,
the clock, and the text of the operating system's errors. -/
structure Env where
  probe : Nat → Bool
  launchOk : Bool
  unixNano : Int
  clock : String
  errExist : String
  errLaunch : String

/-- Append an event to the trace. -/
def World.emit (w : World) (e : Event) : World := { w with trace := w.trace ++ [e] }

/-- The predicate `unicode.IsSpace`. -/
def isSpace (c : Char) : Bool :=
  let n := c.toNat
  (9 ≤ n ∧ n ≤ 13) ∨ n = 32 ∨ n = 0x85 ∨ n = 0xA0 ∨ n = 0x1680 ∨ (0x2000 ≤ n ∧ n ≤ 0x200a)
    ∨ n = 0x2028 ∨ n = 0x2029 ∨ n = 0x202f ∨ n = 0x205f ∨ n = 0x3000

/-- The function `strings.TrimSpace`. -/
def trimSpace (s : String) : String :=
  String.mk ((s.data.dropWhile isSpace).reverse.dropWhile isSpace).reverse

/-- The function `pipeAddr`. -/
def pipeAddr (env : Env) : String := "\\\\.\\pipe\\nvim-unity-" ++ formatInt env.unixNano

/-- The function `readServerAddr`. -/
def readServerAddr (w : World) : (String × Bool) × World :=
  let w := w.emit .readRegistry
  match w.registry with
  | none => (("", false), w)
  | some data =>
    let s := trimSpace data
    if s = "" then (("", false), w) else ((s, true), w)

/-- The function `writeServerAddr`: the exclusive create fails when the file
exists; `none` is the `nil` error. -/
def writeServerAddr (env : Env) (addr : String) (w : World) : Option String × World :=
  let w := w.emit (.createRegistry addr)
  match w.registry with
  | some _ => (some env.errExist, w)
  | none => (none, { w with registry := some addr })

/-- The call `os.Remove(getServerFile())`, its error ignored. -/
def removeServerFile (w : World) : World :=
  { (w.emit .removeRegistry) with registry := none }

/-- The function `isServerRunning`; `alive` is the outcome `cmd.Run() == nil`
of the probe, used when the probe is issued. -/
def isServerRunning (alive : Bool) (w : World) : (Bool × String) × World :=
  match readServerAddr w with
  | ((_, false), w) => ((false, ""), w)
  | ((addr, true), w) =>
    let w := w.emit (.probe addr)
    if alive then ((true, addr), w)
    else ((false, ""), removeServerFile w)

/-- The function `sendToExistingServer`: the command is run and its error dropped. -/
def sendToExistingServer (fileTargets : List FileTarget) (addr : String) (w : World) : World :=
  w.emit (.dispatch (sendToExistingServerArgs fileTargets addr))

/-- The function `startHeadlessServer`; `none` is the `nil` error. -/
def startHeadlessServer (env : Env) (addr : String) (w : World) : Option String × World :=
  (if env.launchOk then none else some env.errLaunch, w.emit (.launch addr))

/-- The final `for` loop of `main`, `k` being the number of calls of
`isServerRunning` made so far; `none` when the loop is still running after
`fuel` iterations. -/
def waitLoop (env : Env) : Nat → Nat → World → Option World
  | 0, _, _ => none
  | fuel + 1, k, w =>
    let w := w.emit (.sleep 2000)
    match isServerRunning (env.probe k) w with
    | ((true, _), w) => waitLoop env fuel (k + 1) w
    | ((false, _), w) => some (w.emit (.stdout ("Server stopped at " ++ env.clock ++ "\n")))

/-- The function `main`: the exit status and the world it leaves, `none` when
the wait loop is still running after `fuel` iterations. -/
def main (args : List String) (env : Env) (fuel : Nat) (w : World) : Option (Nat × World) :=
  match parseArgs args with
  | .error err =>
    some (1, (w.emit (.stderr ("error: " ++ err ++ "\n"))).emit (.sleep 2000))
  | .ok fileTargets =>
    if fileTargets.length = 0 then
      some (1, (w.emit (.stderr "error: no file arguments provided\n")).emit (.sleep 2000))
    else
      match isServerRunning (env.probe 0) w with
      | ((true, addr), w) =>
        let w := sendToExistingServer fileTargets addr w
        let w := w.emit (.stdout "File sent to Neovim server.\n")
        some (0, w.emit (.sleep 1000))
      | ((false, _), w) =>
        let addr := pipeAddr env
        match writeServerAddr env addr w with
        | (some err, w) =>
          some (1, w.emit (.stderr ("error: cannot write server file: " ++ err ++ "\n")))
        | (none, w) =>
          let w := w.emit (.stdout "Starting headless Neovim server...\n")
          let w := w.emit (.stdout ("Server: " ++ addr ++ "\n"))
          match startHeadlessServer env addr w with
          | (some err, w) =>
            let w := w.emit (.stderr ("error: failed to start Neovim: " ++ err ++ "\n"))
            some (1, removeServerFile w)
          | (none, w) =>
            let w := w.emit (.sleep 800)
            let w := sendToExistingServer fileTargets addr w
            let w := w.emit (.stdout "\n")
            let w := w.emit (.stdout ("To attach Neovide:\n  neovide --server " ++ addr ++ "\n"))
            let w := w.emit
              (.stdout ("To attach terminal Neovim:\n  nvim --server " ++ addr ++ " --remote-ui\n"))
            let w := w.emit (.stdout "\n")
            let w := w.emit (.stdout "Waiting for further file requests...\n")
            match waitLoop env fuel 1 w with
            | none => none
            | some w => some (0, removeServerFile w)

/-! ## Predicates used to state the properties of the scan -/

/-- An argument that is neither an option flag, nor an inert token, nor a
solution file: the `default` branch of the switch that appends a target. -/
def isPlain (arg : String) : Prop :=
  ¬ isLineFlag arg ∧ ¬ isColumnFlag arg ∧ ¬ isInert arg ∧ isSln arg = false

/-- One of the four option flags. -/
def isOptionFlag (arg : String) : Prop := isLineFlag arg ∨ isColumnFlag arg

instance (arg : String) : Decidable (isPlain arg) := by unfold isPlain; infer_instance
instance (arg : String) : Decidable (isOptionFlag arg) := by unfold isOptionFlag; infer_instance

/-- Put targets in front of those of a state. -/
def ParseState.prepend (acc : List FileTarget) (st : ParseState) : ParseState :=
  { st with fileTargets := acc ++ st.fileTargets }

/-- Every line and column held by a state, pending or in a target, is positive. -/
def ParseState.Positive (st : ParseState) : Prop :=
  (∀ n, st.line = some n → 0 < n) ∧ (∀ n, st.column = some n → 0 < n)
    ∧ ∀ t ∈ st.fileTargets, (∀ n, t.Line = some n → 0 < n) ∧ (∀ n, t.Column = some n → 0 < n)

/-- The arguments are scanned without error, whatever the state at their start. -/
def ScansOk (pre : List String) : Prop := ∀ st, ∃ st', parseLoop pre st = .ok st'

/-! ## Unfolding `parseLoop` one argument at a time -/

theorem not_lineFlag_of_columnFlag {f : String} (h : isColumnFlag f) : ¬ isLineFlag f := by
  rcases h with rfl | rfl <;> decide

theorem not_flag_of_inert {a : String} (h : isInert a) : ¬ isLineFlag a ∧ ¬ isColumnFlag a := by
  rcases h with rfl | rfl | rfl | rfl <;> decide

theorem not_special_of_sln {a : String} (h : isSln a = true) :
    ¬ isLineFlag a ∧ ¬ isColumnFlag a ∧ ¬ isInert a := by
  refine ⟨?_, ?_, ?_⟩
  · rintro (rfl | rfl) <;> revert h <;> decide
  · rintro (rfl | rfl) <;> revert h <;> decide
  · rintro (rfl | rfl | rfl | rfl) <;> revert h <;> decide

theorem parseLoop_line_last {f : String} (h : isLineFlag f) (st : ParseState) :
    parseLoop [f] st = .error ("no integer argument passed to " ++ f) := by
  simp [parseLoop, h]

theorem parseLoop_line {f : String} (h : isLineFlag f) (v : String) (rest : List String)
    (st : ParseState) :
    parseLoop (f :: v :: rest) st =
      match Atoi v with
      | none => .error ("invalid line number: " ++ v)
      | some n => parseLoop rest (if 0 < n then { st with line := some n } else st) := by
  simp [parseLoop, h]

theorem parseLoop_column_last {f : String} (h : isColumnFlag f) (st : ParseState) :
    parseLoop [f] st = .error ("no integer argument passed to " ++ f) := by
  simp [parseLoop, h, not_lineFlag_of_columnFlag h]

theorem parseLoop_column {f : String} (h : isColumnFlag f) (v : String) (rest : List String)
    (st : ParseState) :
    parseLoop (f :: v :: rest) st =
      match Atoi v with
      | none => .error ("invalid column number: " ++ v)
      | some n => parseLoop rest (if 0 < n then { st with column := some n } else st) := by
  simp [parseLoop, h, not_lineFlag_of_columnFlag h]

theorem parseLoop_inert {a : String} (h : isInert a) (rest : List String) (st : ParseState) :
    parseLoop (a :: rest) st = parseLoop rest st := by
  cases rest <;> simp [parseLoop, h, not_flag_of_inert h]

theorem parseLoop_sln {a : String} (h : isSln a = true) (rest : List String) (st : ParseState) :
    parseLoop (a :: rest) st = parseLoop rest { st with line := none, column := none } := by
  cases rest <;> simp [parseLoop, h, not_special_of_sln h]

theorem parseLoop_plain {a : String} (h : isPlain a) (rest : List String) (st : ParseState) :
    parseLoop (a :: rest) st =
      parseLoop rest
        { fileTargets := st.fileTargets ++ [{ Line := st.line, Column := st.column, Filename := a }],
          line := none, column := none } := by
  obtain ⟨h1, h2, h3, h4⟩ := h
  cases rest <;> simp [parseLoop, h1, h2, h3, h4]

/-- Inert tokens leave the state of the scan as it is. -/
theorem parseLoop_inerts (xs : List String) (h : ∀ x ∈ xs, isInert x) (rest : List String)
    (st : ParseState) : parseLoop (xs ++ rest) st = parseLoop rest st := by
  induction xs with
  | nil => rfl
  | cons x xs ih =>
    rw [List.cons_append, parseLoop_inert (h x (List.mem_cons_self _ _))]
    exact ih (fun y hy => h y (List.mem_cons_of_mem _ hy))

/-- A prefix that is scanned without error hands its final state to what follows. -/
theorem parseLoop_append (pre : List String) (st : ParseState) :
    ∀ st', parseLoop pre st = .ok st' →
      ∀ rest, parseLoop (pre ++ rest) st = parseLoop rest st' := by
  induction pre, st using parseLoop.induct with
  | case1 st => intro st' h rest; simp [parseLoop] at h; subst h; rfl
  | case2 arg st hl => intro st' h; rw [parseLoop_line_last hl] at h; cases h
  | case3 arg st hl v rest' hv => intro st' h; rw [parseLoop_line hl, hv] at h; cases h
  | case4 arg st hl v rest' n hv ih =>
    intro st' h rest
    rw [parseLoop_line hl, hv] at h
    rw [List.cons_append, List.cons_append, parseLoop_line hl, hv]
    exact ih st' h rest
  | case5 arg st _ hc => intro st' h; rw [parseLoop_column_last hc] at h; cases h
  | case6 arg st _ hc v rest' hv => intro st' h; rw [parseLoop_column hc, hv] at h; cases h
  | case7 arg st _ hc v rest' n hv ih =>
    intro st' h rest
    rw [parseLoop_column hc, hv] at h
    rw [List.cons_append, List.cons_append, parseLoop_column hc, hv]
    exact ih st' h rest
  | case8 arg rest0 st _ _ hi ih =>
    intro st' h rest
    rw [parseLoop_inert hi] at h
    rw [List.cons_append, parseLoop_inert hi]
    exact ih st' h rest
  | case9 arg rest0 st _ _ _ hs ih =>
    intro st' h rest
    rw [parseLoop_sln hs] at h
    rw [List.cons_append, parseLoop_sln hs]
    exact ih st' h rest
  | case10 arg rest0 st h1 h2 h3 h4 ih =>
    intro st' h rest
    have hp : isPlain arg := ⟨h1, h2, h3, by simpa using h4⟩
    rw [parseLoop_plain hp] at h
    rw [List.cons_append, parseLoop_plain hp]
    exact ih st' h rest

theorem ParseState.prepend_setLine (acc : List FileTarget) (st : ParseState) (n : Int) :
    (if 0 < n then { st.prepend acc with line := some n } else st.prepend acc)
      = (if 0 < n then { st with line := some n } else st).prepend acc := by
  split_ifs <;> rfl

theorem ParseState.prepend_setColumn (acc : List FileTarget) (st : ParseState) (n : Int) :
    (if 0 < n then { st.prepend acc with column := some n } else st.prepend acc)
      = (if 0 < n then { st with column := some n } else st).prepend acc := by
  split_ifs <;> rfl

/-- The targets already collected play no part in the scan: they stay in front
of whatever the scan adds. -/
theorem parseLoop_prepend (acc : List FileTarget) (args : List String) (st : ParseState) :
    parseLoop args (st.prepend acc) =
      match parseLoop args st with
      | .error e => .error e
      | .ok s => .ok (s.prepend acc) := by
  induction args, st using parseLoop.induct with
  | case1 st => simp [parseLoop]
  | case2 arg st hl => simp [parseLoop_line_last hl]
  | case3 arg st hl v rest' hv => simp [parseLoop_line hl, hv]
  | case4 arg st hl v rest' n hv ih =>
    simp only [parseLoop_line hl, hv]
    rw [← ih]
    exact congrArg _ (ParseState.prepend_setLine acc st n)
  | case5 arg st _ hc => simp [parseLoop_column_last hc]
  | case6 arg st _ hc v rest' hv => simp [parseLoop_column hc, hv]
  | case7 arg st _ hc v rest' n hv ih =>
    simp only [parseLoop_column hc, hv]
    rw [← ih]
    exact congrArg _ (ParseState.prepend_setColumn acc st n)
  | case8 arg rest0 st _ _ hi ih => simpa [parseLoop_inert hi] using ih
  | case9 arg rest0 st _ _ _ hs ih =>
    rw [parseLoop_sln hs, parseLoop_sln hs, ← ih]; rfl
  | case10 arg rest0 st h1 h2 h3 h4 ih =>
    have hp : isPlain arg := ⟨h1, h2, h3, by simpa using h4⟩
    rw [parseLoop_plain hp, parseLoop_plain hp, ← ih]
    simp [ParseState.prepend]

/-- The scan only ever adds targets at the end. -/
theorem parseLoop_targets_extend {args : List String} {st st' : ParseState}
    (h : parseLoop args st = .ok st') : ∃ more, st'.fileTargets = st.fileTargets ++ more := by
  have hst : st = ParseState.prepend st.fileTargets { st with fileTargets := [] } := by
    simp [ParseState.prepend]
  rw [hst, parseLoop_prepend] at h
  cases hq : parseLoop args { st with fileTargets := [] } with
  | error e => rw [hq] at h; cases h
  | ok s =>
    rw [hq] at h
    injection h with h
    exact ⟨s.fileTargets, by rw [← h]; simp [ParseState.prepend]⟩

/-- What `parseArgs` returns, read off the loop. -/
theorem parseArgs_ok_iff {args : List String} {ts : List FileTarget} :
    parseArgs args = .ok ts ↔ ∃ st, parseLoop args initState = .ok st ∧ st.fileTargets = ts := by
  unfold parseArgs
  cases parseLoop args initState with
  | error e => simp
  | ok st => simp

theorem parseArgs_error_iff {args : List String} {e : String} :
    parseArgs args = .error e ↔ parseLoop args initState = .error e := by
  unfold parseArgs
  cases parseLoop args initState with
  | error e => simp
  | ok st => simp

/-- The value `strconv.Atoi` returns is the value of the literal. -/
theorem Atoi_eq_decimalValue {v : String} {n : Int} (h : Atoi v = some n) :
    decimalValue v = some n := by
  unfold Atoi at h
  cases hd : decimalValue v with
  | none => rw [hd] at h; cases h
  | some m =>
    rw [hd] at h
    simp only at h
    split_ifs at h
    exact h

/-- No target is ever named after a solution file. -/
theorem parseLoop_no_sln (args : List String) (st : ParseState) :
    ∀ st', parseLoop args st = .ok st' →
      (∀ t ∈ st.fileTargets, isSln t.Filename = false) →
      ∀ t ∈ st'.fileTargets, isSln t.Filename = false := by
  induction args, st using parseLoop.induct with
  | case1 st => intro st' h; simp [parseLoop] at h; subst h; exact id
  | case2 arg st hl => intro st' h; rw [parseLoop_line_last hl] at h; cases h
  | case3 arg st hl v rest' hv => intro st' h; rw [parseLoop_line hl, hv] at h; cases h
  | case4 arg st hl v rest' n hv ih =>
    intro st' h hinv
    rw [parseLoop_line hl, hv] at h
    refine ih st' h ?_
    split_ifs <;> exact hinv
  | case5 arg st _ hc => intro st' h; rw [parseLoop_column_last hc] at h; cases h
  | case6 arg st _ hc v rest' hv => intro st' h; rw [parseLoop_column hc, hv] at h; cases h
  | case7 arg st _ hc v rest' n hv ih =>
    intro st' h hinv
    rw [parseLoop_column hc, hv] at h
    refine ih st' h ?_
    split_ifs <;> exact hinv
  | case8 arg rest0 st _ _ hi ih =>
    intro st' h hinv
    rw [parseLoop_inert hi] at h
    exact ih st' h hinv
  | case9 arg rest0 st _ _ _ hs ih =>
    intro st' h hinv
    rw [parseLoop_sln hs] at h
    exact ih st' h hinv
  | case10 arg rest0 st h1 h2 h3 h4 ih =>
    intro st' h hinv
    have hp : isPlain arg := ⟨h1, h2, h3, by simpa using h4⟩
    rw [parseLoop_plain hp] at h
    refine ih st' h ?_
    intro t ht
    rcases List.mem_append.1 ht with ht | ht
    · exact hinv t ht
    · rw [List.mem_singleton] at ht
      subst ht
      exact hp.2.2.2

/-- The guard `n > 0` keeps every stored line and column positive. -/
theorem parseLoop_positive (args : List String) (st : ParseState) :
    ∀ st', parseLoop args st = .ok st' → st.Positive → st'.Positive := by
  induction args, st using parseLoop.induct with
  | case1 st => intro st' h; simp [parseLoop] at h; subst h; exact id
  | case2 arg st hl => intro st' h; rw [parseLoop_line_last hl] at h; cases h
  | case3 arg st hl v rest' hv => intro st' h; rw [parseLoop_line hl, hv] at h; cases h
  | case4 arg st hl v rest' n hv ih =>
    intro st' h hinv
    rw [parseLoop_line hl, hv] at h
    refine ih st' h ?_
    split_ifs with hn
    · exact ⟨fun m hm => (by cases hm; exact hn), hinv.2.1, hinv.2.2⟩
    · exact hinv
  | case5 arg st _ hc => intro st' h; rw [parseLoop_column_last hc] at h; cases h
  | case6 arg st _ hc v rest' hv => intro st' h; rw [parseLoop_column hc, hv] at h; cases h
  | case7 arg st _ hc v rest' n hv ih =>
    intro st' h hinv
    rw [parseLoop_column hc, hv] at h
    refine ih st' h ?_
    split_ifs with hn
    · exact ⟨hinv.1, fun m hm => (by cases hm; exact hn), hinv.2.2⟩
    · exact hinv
  | case8 arg rest0 st _ _ hi ih =>
    intro st' h hinv
    rw [parseLoop_inert hi] at h
    exact ih st' h hinv
  | case9 arg rest0 st _ _ _ hs ih =>
    intro st' h hinv
    rw [parseLoop_sln hs] at h
    exact ih st' h ⟨fun n hn => (by cases hn), fun n hn => (by cases hn), hinv.2.2⟩
  | case10 arg rest0 st h1 h2 h3 h4 ih =>
    intro st' h hinv
    have hp : isPlain arg := ⟨h1, h2, h3, by simpa using h4⟩
    rw [parseLoop_plain hp] at h
    refine ih st' h ⟨fun n hn => (by cases hn), fun n hn => (by cases hn), ?_⟩
    intro t ht
    rcases List.mem_append.1 ht with ht | ht
    · exact hinv.2.2 t ht
    · rw [List.mem_singleton] at ht
      subst ht
      exact ⟨hinv.1, hinv.2.1⟩

theorem ScansOk.nil : ScansOk [] := fun st => ⟨st, rfl⟩

theorem ScansOk.line {f v : String} {n : Int} {pre : List String} (hf : isLineFlag f)
    (hv : Atoi v = some n) (h : ScansOk pre) : ScansOk (f :: v :: pre) := by
  intro st
  rw [parseLoop_line hf, hv]
  exact h _

theorem ScansOk.column {f v : String} {n : Int} {pre : List String} (hf : isColumnFlag f)
    (hv : Atoi v = some n) (h : ScansOk pre) : ScansOk (f :: v :: pre) := by
  intro st
  rw [parseLoop_column hf, hv]
  exact h _

theorem ScansOk.inert {a : String} {pre : List String} (ha : isInert a) (h : ScansOk pre) :
    ScansOk (a :: pre) := by
  intro st
  rw [parseLoop_inert ha]
  exact h _

theorem ScansOk.sln {a : String} {pre : List String} (ha : isSln a = true) (h : ScansOk pre) :
    ScansOk (a :: pre) := by
  intro st
  rw [parseLoop_sln ha]
  exact h _

theorem ScansOk.plain {a : String} {pre : List String} (ha : isPlain a) (h : ScansOk pre) :
    ScansOk (a :: pre) := by
  intro st
  rw [parseLoop_plain ha]
  exact h _

/-- Whether the scan fails does not depend on the state it starts from. -/
theorem scansOk_of_parseLoop_ok (args : List String) (st : ParseState) :
    ∀ st', parseLoop args st = .ok st' → ScansOk args := by
  induction args, st using parseLoop.induct with
  | case1 st => intro _ _; exact ScansOk.nil
  | case2 arg st hl => intro st' h; rw [parseLoop_line_last hl] at h; cases h
  | case3 arg st hl v rest' hv => intro st' h; rw [parseLoop_line hl, hv] at h; cases h
  | case4 arg st hl v rest' n hv ih =>
    intro st' h
    rw [parseLoop_line hl, hv] at h
    exact ScansOk.line hl hv (ih st' h)
  | case5 arg st _ hc => intro st' h; rw [parseLoop_column_last hc] at h; cases h
  | case6 arg st _ hc v rest' hv => intro st' h; rw [parseLoop_column hc, hv] at h; cases h
  | case7 arg st _ hc v rest' n hv ih =>
    intro st' h
    rw [parseLoop_column hc, hv] at h
    exact ScansOk.column hc hv (ih st' h)
  | case8 arg rest0 st _ _ hi ih =>
    intro st' h
    rw [parseLoop_inert hi] at h
    exact ScansOk.inert hi (ih st' h)
  | case9 arg rest0 st _ _ _ hs ih =>
    intro st' h
    rw [parseLoop_sln hs] at h
    exact ScansOk.sln hs (ih st' h)
  | case10 arg rest0 st h1 h2 h3 h4 ih =>
    intro st' h
    have hp : isPlain arg := ⟨h1, h2, h3, by simpa using h4⟩
    rw [parseLoop_plain hp] at h
    exact ScansOk.plain hp (ih st' h)

theorem scansOk_iff_parseArgs_ok (pre : List String) :
    ScansOk pre ↔ ∃ ts, parseArgs pre = .ok ts := by
  constructor
  · intro h
    obtain ⟨st', hst⟩ := h initState
    exact ⟨st'.fileTargets, parseArgs_ok_iff.2 ⟨st', hst, rfl⟩⟩
  · rintro ⟨ts, h⟩
    obtain ⟨st', hst, _⟩ := parseArgs_ok_iff.1 h
    exact scansOk_of_parseLoop_ok pre initState st' hst

/-- Where an error of the scan comes from: an option flag, reached after a
prefix that scans without error, that is the last argument or is followed by a
string `strconv.Atoi` rejects; and what the message is in each case. -/
theorem parseLoop_error (args : List String) (st : ParseState) :
    ∀ e, parseLoop args st = .error e →
      ∃ pre f rest, args = pre ++ f :: rest ∧ ScansOk pre ∧
        ((rest = [] ∧ isOptionFlag f ∧ e = "no integer argument passed to " ++ f)
          ∨ ∃ v post, rest = v :: post ∧ Atoi v = none ∧
              ((isLineFlag f ∧ e = "invalid line number: " ++ v)
                ∨ (isColumnFlag f ∧ e = "invalid column number: " ++ v))) := by
  induction args, st using parseLoop.induct with
  | case1 st => intro e h; simp [parseLoop] at h
  | case2 arg st hl =>
    intro e h
    rw [parseLoop_line_last hl] at h
    injection h with h
    exact ⟨[], arg, [], rfl, ScansOk.nil, Or.inl ⟨rfl, Or.inl hl, h.symm⟩⟩
  | case3 arg st hl v rest' hv =>
    intro e h
    rw [parseLoop_line hl, hv] at h
    injection h with h
    exact ⟨[], arg, v :: rest', rfl, ScansOk.nil, Or.inr ⟨v, rest', rfl, hv, Or.inl ⟨hl, h.symm⟩⟩⟩
  | case4 arg st hl v rest' n hv ih =>
    intro e h
    rw [parseLoop_line hl, hv] at h
    obtain ⟨pre, f, rest, hargs, hok, hcase⟩ := ih e h
    exact ⟨arg :: v :: pre, f, rest, by rw [hargs]; rfl, ScansOk.line hl hv hok, hcase⟩
  | case5 arg st _ hc =>
    intro e h
    rw [parseLoop_column_last hc] at h
    injection h with h
    exact ⟨[], arg, [], rfl, ScansOk.nil, Or.inl ⟨rfl, Or.inr hc, h.symm⟩⟩
  | case6 arg st _ hc v rest' hv =>
    intro e h
    rw [parseLoop_column hc, hv] at h
    injection h with h
    exact ⟨[], arg, v :: rest', rfl, ScansOk.nil, Or.inr ⟨v, rest', rfl, hv, Or.inr ⟨hc, h.symm⟩⟩⟩
  | case7 arg st _ hc v rest' n hv ih =>
    intro e h
    rw [parseLoop_column hc, hv] at h
    obtain ⟨pre, f, rest, hargs, hok, hcase⟩ := ih e h
    exact ⟨arg :: v :: pre, f, rest, by rw [hargs]; rfl, ScansOk.column hc hv hok, hcase⟩
  | case8 arg rest0 st _ _ hi ih =>
    intro e h
    rw [parseLoop_inert hi] at h
    obtain ⟨pre, f, rest, hargs, hok, hcase⟩ := ih e h
    exact ⟨arg :: pre, f, rest, by rw [hargs]; rfl, ScansOk.inert hi hok, hcase⟩
  | case9 arg rest0 st _ _ _ hs ih =>
    intro e h
    rw [parseLoop_sln hs] at h
    obtain ⟨pre, f, rest, hargs, hok, hcase⟩ := ih e h
    exact ⟨arg :: pre, f, rest, by rw [hargs]; rfl, ScansOk.sln hs hok, hcase⟩
  | case10 arg rest0 st h1 h2 h3 h4 ih =>
    intro e h
    have hp : isPlain arg := ⟨h1, h2, h3, by simpa using h4⟩
    rw [parseLoop_plain hp] at h
    obtain ⟨pre, f, rest, hargs, hok, hcase⟩ := ih e h
    exact ⟨arg :: pre, f, rest, by rw [hargs]; rfl, ScansOk.plain hp hok, hcase⟩

/-- The element right after a prefix of known length. -/
theorem getElem?_length_append_cons {α : Type} (xs : List α) (x : α) (more : List α) :
    (xs ++ [x] ++ more)[xs.length]? = some x := by
  rw [List.append_assoc, List.getElem?_append_right (Nat.le_refl _)]
  simp

/-! ## The claims about `parseArgs` -/

/-- C1. Line and column options attach to the next filename: in an accepted
argument vector `pre ++ [lf, L] ++ inert* ++ [cf, C] ++ inert* ++ [F] ++ post`,
where `pre` parses on its own into `n` targets, `lf` is a line flag, `cf` a
column flag, `L` and `C` are decimal integers greater than 0 and `F` is a plain
filename, the target at index `n` is `F` with line `L` and column `C`. -/
theorem parseArgs_line_column_attach (pre i1 i2 post : List String) (lf L cf C F : String)
    (ts r : List FileTarget) (l c : Int)
    (hpre : parseArgs pre = .ok ts)
    (hlf : isLineFlag lf) (hcf : isColumnFlag cf)
    (hL : decimalValue L = some l) (hl : 0 < l)
    (hC : decimalValue C = some c) (hc : 0 < c)
    (hi1 : ∀ x ∈ i1, isInert x) (hi2 : ∀ x ∈ i2, isInert x)
    (hF : isPlain F)
    (hacc : parseArgs (pre ++ [lf, L] ++ i1 ++ [cf, C] ++ i2 ++ [F] ++ post) = .ok r) :
    r[ts.length]? = some { Line := some l, Column := some c, Filename := F } := by
  obtain ⟨st1, h1, hts⟩ := parseArgs_ok_iff.1 hpre
  obtain ⟨st2, h2, hr⟩ := parseArgs_ok_iff.1 hacc
  have hshape : pre ++ [lf, L] ++ i1 ++ [cf, C] ++ i2 ++ [F] ++ post
      = pre ++ (lf :: L :: (i1 ++ (cf :: C :: (i2 ++ (F :: post))))) := by simp
  rw [hshape, parseLoop_append pre _ st1 h1, parseLoop_line hlf] at h2
  cases hAL : Atoi L with
  | none => rw [hAL] at h2; cases h2
  | some n =>
    have hn : n = l := Option.some.inj ((Atoi_eq_decimalValue hAL).symm.trans hL)
    subst hn
    rw [hAL] at h2
    simp only [if_pos hl] at h2
    rw [parseLoop_inerts i1 hi1, parseLoop_column hcf] at h2
    cases hAC : Atoi C with
    | none => rw [hAC] at h2; cases h2
    | some m =>
      have hm : m = c := Option.some.inj ((Atoi_eq_decimalValue hAC).symm.trans hC)
      subst hm
      rw [hAC] at h2
      simp only [if_pos hc] at h2
      rw [parseLoop_inerts i2 hi2, parseLoop_plain hF] at h2
      obtain ⟨more, hmore⟩ := parseLoop_targets_extend h2
      simp only at hmore
      rw [← hr, hmore, ← hts]
      exact getElem?_length_append_cons _ _ _

/-- C1, at `--line 5 --column 3 foo.txt`: the result is exactly one target,
`foo.txt` at line 5, column 3. -/
theorem parseArgs_line_column_attach_witness :
    parseArgs ["--line", "5", "--column", "3", "foo.txt"]
        = .ok [{ Line := some 5, Column := some 3, Filename := "foo.txt" }]
      ∧ ([{ Line := some 5, Column := some 3, Filename := "foo.txt" }] : List FileTarget)[0]?
        = some { Line := some 5, Column := some 3, Filename := "foo.txt" } :=
  ⟨by decide,
   parseArgs_line_column_attach [] [] [] [] "--line" "5" "--column" "3" "foo.txt" [] _ 5 3
    (by decide) (by decide) (by decide) (by decide) (by decide) (by decide) (by decide)
    (by simp) (by simp) (by decide) (by decide)⟩

/-- C4. A solution file clears the pending line and column and is not a
target: in an accepted vector `pre ++ [S] ++ inert* ++ [F] ++ post`, where `pre`
parses on its own into `n` targets, `S` ends in `.sln` (whatever the case) and
`F` is a plain filename, the target at index `n` is `F` with no line and no
column, `S` adds no target to those of `pre`, and no target is named `S`. -/
theorem parseArgs_sln_clears_pending (pre inerts post : List String) (S F : String)
    (ts r : List FileTarget)
    (hpre : parseArgs pre = .ok ts)
    (hS : isSln S = true)
    (hi : ∀ x ∈ inerts, isInert x)
    (hF : isPlain F)
    (hacc : parseArgs (pre ++ [S] ++ inerts ++ [F] ++ post) = .ok r) :
    r[ts.length]? = some { Line := none, Column := none, Filename := F }
      ∧ parseArgs (pre ++ [S]) = .ok ts
      ∧ ∀ t ∈ r, t.Filename ≠ S := by
  obtain ⟨st1, h1, hts⟩ := parseArgs_ok_iff.1 hpre
  obtain ⟨st2, h2, hr⟩ := parseArgs_ok_iff.1 hacc
  refine ⟨?_, ?_, ?_⟩
  · have hshape : pre ++ [S] ++ inerts ++ [F] ++ post
        = pre ++ (S :: (inerts ++ (F :: post))) := by simp
    rw [hshape, parseLoop_append pre _ st1 h1, parseLoop_sln hS, parseLoop_inerts inerts hi,
      parseLoop_plain hF] at h2
    obtain ⟨more, hmore⟩ := parseLoop_targets_extend h2
    simp only at hmore
    rw [← hr, hmore, ← hts]
    exact getElem?_length_append_cons _ _ _
  · refine parseArgs_ok_iff.2 ⟨{ st1 with line := none, column := none }, ?_, hts⟩
    rw [parseLoop_append pre _ st1 h1, parseLoop_sln hS]
    rfl
  · intro t ht heq
    have hno := parseLoop_no_sln _ _ st2 h2 (by simp [initState]) t (hr ▸ ht)
    rw [heq, hS] at hno
    cases hno

/-- C4, at `--line 5 App.SLN nosplash a.txt`: `a.txt` gets no line. -/
theorem parseArgs_sln_clears_pending_witness :
    parseArgs ["--line", "5"] = .ok []
      ∧ parseArgs (["--line", "5"] ++ ["App.SLN"] ++ ["nosplash"] ++ ["a.txt"] ++ [])
          = .ok [{ Line := none, Column := none, Filename := "a.txt" }]
      ∧ (([{ Line := none, Column := none, Filename := "a.txt" }] : List FileTarget)[0]?
          = some { Line := none, Column := none, Filename := "a.txt" }
        ∧ parseArgs (["--line", "5"] ++ ["App.SLN"]) = .ok []
        ∧ ∀ t ∈ ([{ Line := none, Column := none, Filename := "a.txt" }] : List FileTarget),
            t.Filename ≠ "App.SLN") :=
  ⟨by decide, by decide,
   parseArgs_sln_clears_pending ["--line", "5"] ["nosplash"] [] "App.SLN" "a.txt" [] _
    (by decide) (by decide) (by decide) (by decide) (by decide)⟩

/-- C6. Parsing is compositional at a filename: when `pre` parses on its own
and `F` is a plain filename, `pre ++ [F]` parses, `pre ++ [F] ++ post` fails
exactly when `post` fails (with the same error), and otherwise its targets are
those of `pre ++ [F]` followed by those of `post`. -/
theorem parseArgs_split_at_filename (pre post : List String) (F : String)
    (ts : List FileTarget)
    (hpre : parseArgs pre = .ok ts) (hF : isPlain F) :
    ∃ a, parseArgs (pre ++ [F]) = .ok a
      ∧ (∀ e, parseArgs (pre ++ [F] ++ post) = .error e ↔ parseArgs post = .error e)
      ∧ (∀ b, parseArgs post = .ok b → parseArgs (pre ++ [F] ++ post) = .ok (a ++ b)) := by
  obtain ⟨st1, h1, _⟩ := parseArgs_ok_iff.1 hpre
  let ft : FileTarget := { Line := st1.line, Column := st1.column, Filename := F }
  have hstate : ({ fileTargets := st1.fileTargets ++ [ft], line := none, column := none }
      : ParseState) = initState.prepend (st1.fileTargets ++ [ft]) := by
    simp [ParseState.prepend, initState]
  have hwhole : parseLoop (pre ++ [F] ++ post) initState
      = match parseLoop post initState with
        | .error e => .error e
        | .ok s => .ok (s.prepend (st1.fileTargets ++ [ft])) := by
    rw [List.append_assoc, parseLoop_append pre _ st1 h1, List.singleton_append,
      parseLoop_plain hF, hstate, parseLoop_prepend]
  refine ⟨st1.fileTargets ++ [ft], ?_, ?_, ?_⟩
  · refine parseArgs_ok_iff.2
      ⟨{ fileTargets := st1.fileTargets ++ [ft], line := none, column := none }, ?_, rfl⟩
    rw [parseLoop_append pre _ st1 h1, parseLoop_plain hF]
    rfl
  · intro e
    rw [parseArgs_error_iff, parseArgs_error_iff, hwhole]
    cases parseLoop post initState with
    | error e0 => simp
    | ok s => simp
  · intro b hb
    obtain ⟨s, hs, hsb⟩ := parseArgs_ok_iff.1 hb
    refine parseArgs_ok_iff.2 ⟨s.prepend (st1.fileTargets ++ [ft]), ?_, ?_⟩
    · rw [hwhole, hs]
    · simp [ParseState.prepend, hsb]

/-- C6, at `--line 5 a.txt b.txt`: `b.txt` has no line and no column. -/
theorem parseArgs_split_at_filename_witness :
    parseArgs ["--line", "5"] = .ok []
      ∧ parseArgs (["--line", "5"] ++ ["a.txt"] ++ ["b.txt"])
          = .ok [{ Line := some 5, Column := none, Filename := "a.txt" },
                 { Line := none, Column := none, Filename := "b.txt" }]
      ∧ ∃ a, parseArgs (["--line", "5"] ++ ["a.txt"]) = .ok a
          ∧ (∀ e, parseArgs (["--line", "5"] ++ ["a.txt"] ++ ["b.txt"]) = .error e
                ↔ parseArgs ["b.txt"] = .error e)
          ∧ (∀ b, parseArgs ["b.txt"] = .ok b
                → parseArgs (["--line", "5"] ++ ["a.txt"] ++ ["b.txt"]) = .ok (a ++ b)) :=
  ⟨by decide, by decide,
   parseArgs_split_at_filename ["--line", "5"] ["b.txt"] "a.txt" [] (by decide) (by decide)⟩

/-- C7, as stated, fails: `-9223372036854775809` is a decimal integer below 0,
yet `strconv.Atoi` rejects it (it does not fit in an `int`), so
`--line -9223372036854775809 a.txt` is an error while `a.txt` alone parses. -/
theorem parseArgs_nonpositive_option_counterexample :
    parseArgs [] = .ok []
      ∧ isOptionFlag "--line"
      ∧ decimalValue "-9223372036854775809" = some (-9223372036854775809)
      ∧ (-9223372036854775809 : Int) ≤ 0
      ∧ parseArgs ([] ++ ["--line", "-9223372036854775809"] ++ ["a.txt"])
          = .error "invalid line number: -9223372036854775809"
      ∧ parseArgs ([] ++ ["a.txt"]) = .ok [{ Line := none, Column := none, Filename := "a.txt" }]
      ∧ parseArgs ([] ++ ["--line", "-9223372036854775809"] ++ ["a.txt"])
          ≠ parseArgs ([] ++ ["a.txt"]) := by
  refine ⟨by decide, by decide, by decide, by decide, by decide, by decide, by decide⟩

/-- C7, amended. An option whose value `strconv.Atoi` accepts and that is not
positive is treated as if the option had not been given: when `pre` parses on
its own, `parseArgs (pre ++ [f, v] ++ post) = parseArgs (pre ++ post)`. -/
theorem parseArgs_nonpositive_option_ignored (pre post : List String) (f v : String)
    (ts : List FileTarget) (n : Int)
    (hpre : parseArgs pre = .ok ts) (hf : isOptionFlag f)
    (hv : Atoi v = some n) (hn : n ≤ 0) :
    parseArgs (pre ++ [f, v] ++ post) = parseArgs (pre ++ post) := by
  obtain ⟨st1, h1, _⟩ := parseArgs_ok_iff.1 hpre
  have hnot : ¬ 0 < n := not_lt.2 hn
  have hloop : parseLoop (pre ++ [f, v] ++ post) initState = parseLoop (pre ++ post) initState := by
    have hshape : pre ++ [f, v] ++ post = pre ++ (f :: v :: post) := by simp
    rw [hshape, parseLoop_append pre _ st1 h1, parseLoop_append pre _ st1 h1]
    rcases hf with hf | hf
    · rw [parseLoop_line hf, hv]
      simp only [if_neg hnot]
    · rw [parseLoop_column hf, hv]
      simp only [if_neg hnot]
  unfold parseArgs
  rw [hloop]

/-- C7, amended, at `a.txt --column 0 b.txt`. -/
theorem parseArgs_nonpositive_option_ignored_witness :
    parseArgs ["a.txt"] = .ok [{ Line := none, Column := none, Filename := "a.txt" }]
      ∧ isOptionFlag "--column" ∧ Atoi "0" = some 0 ∧ (0 : Int) ≤ 0
      ∧ parseArgs (["a.txt"] ++ ["--column", "0"] ++ ["b.txt"])
          = parseArgs (["a.txt"] ++ ["b.txt"]) :=
  ⟨by decide, by decide, by decide, by decide,
   parseArgs_nonpositive_option_ignored ["a.txt"] ["b.txt"] "--column" "0"
    [{ Line := none, Column := none, Filename := "a.txt" }] 0
    (by decide) (by decide) (by decide) (by decide)⟩

/-- C3, as stated, fails: `--column 3 foo.txt` is accepted and its target has a
column and no line. -/
theorem parseArgs_column_without_line_counterexample :
    parseArgs ["--column", "3", "foo.txt"]
        = .ok [{ Line := none, Column := some 3, Filename := "foo.txt" }]
      ∧ ¬ (∀ t ∈ ([{ Line := none, Column := some 3, Filename := "foo.txt" }] : List FileTarget),
            t.Column ≠ none → t.Line ≠ none) := by
  refine ⟨by decide, ?_⟩
  intro h
  exact h _ (List.mem_singleton.2 rfl) (by simp) rfl

/-- C3, amended. `parseArgs` keeps a column given without a line in the target
(a column that is set is always greater than 0); it is `sendToExistingServer`
that drops it: for every target of an accepted argument vector whose line is
not set, the command built for it is `--remote` and the filename, whatever its
column. -/
theorem parseArgs_column_without_line_dropped (args : List String) (ts : List FileTarget)
    (t : FileTarget) (hacc : parseArgs args = .ok ts) (ht : t ∈ ts) :
    (∀ c, t.Column = some c → 0 < c)
      ∧ (t.Line = none →
          (∀ as, appendTarget as t = as ++ ["--remote", t.Filename])
            ∧ ∀ addr, sendToExistingServerArgs [t] addr
                = ["--server", addr, "--remote", t.Filename]) := by
  obtain ⟨st, hst, hts⟩ := parseArgs_ok_iff.1 hacc
  have hpos := parseLoop_positive args initState st hst
    ⟨by simp [initState], by simp [initState], by simp [initState]⟩
  refine ⟨(hpos.2.2 t (hts ▸ ht)).2, ?_⟩
  intro hline
  have h1 : ∀ as, appendTarget as t = as ++ ["--remote", t.Filename] := by
    intro as
    unfold appendTarget
    rw [hline]
  refine ⟨h1, ?_⟩
  intro addr
  simp [sendToExistingServerArgs, h1]

/-- C3, amended, at `--column 3 foo.txt`. -/
theorem parseArgs_column_without_line_dropped_witness :
    parseArgs ["--column", "3", "foo.txt"]
        = .ok [{ Line := none, Column := some 3, Filename := "foo.txt" }]
      ∧ ((∀ c, (some 3 : Option Int) = some c → 0 < c)
        ∧ ((none : Option Int) = none →
            (∀ as, appendTarget as { Line := none, Column := some 3, Filename := "foo.txt" }
                = as ++ ["--remote", "foo.txt"])
            ∧ ∀ addr, sendToExistingServerArgs
                  [{ Line := none, Column := some 3, Filename := "foo.txt" }] addr
                = ["--server", addr, "--remote", "foo.txt"])) :=
  ⟨by decide,
   parseArgs_column_without_line_dropped ["--column", "3", "foo.txt"]
    [{ Line := none, Column := some 3, Filename := "foo.txt" }]
    { Line := none, Column := some 3, Filename := "foo.txt" } (by decide)
    (List.mem_singleton.2 rfl)⟩

/-- C5. `parseArgs` fails exactly on a malformed option: it returns an error if
and only if the arguments are `pre ++ f :: rest` where `pre` parses on its own
(so the scan reaches `f` at an argument position), `f` is one of `--line`,
`-l`, `--column`, `-c`, and `f` is the last argument or is followed by a string
`strconv.Atoi` rejects.  Nothing else makes it fail. -/
theorem parseArgs_fails_iff_malformed_option (args : List String) :
    (∃ e, parseArgs args = .error e) ↔
      ∃ pre f rest ts, args = pre ++ f :: rest ∧ parseArgs pre = .ok ts ∧ isOptionFlag f ∧
        (rest = [] ∨ ∃ v post, rest = v :: post ∧ Atoi v = none) := by
  constructor
  · rintro ⟨e, he⟩
    obtain ⟨pre, f, rest, hargs, hok, hcase⟩ :=
      parseLoop_error args initState e (parseArgs_error_iff.1 he)
    obtain ⟨ts, hts⟩ := (scansOk_iff_parseArgs_ok pre).1 hok
    refine ⟨pre, f, rest, ts, hargs, hts, ?_, ?_⟩
    · rcases hcase with ⟨_, hf, _⟩ | ⟨v, post, _, _, ⟨hf, _⟩ | ⟨hf, _⟩⟩
      · exact hf
      · exact Or.inl hf
      · exact Or.inr hf
    · rcases hcase with ⟨hrest, _, _⟩ | ⟨v, post, hrest, hv, _⟩
      · exact Or.inl hrest
      · exact Or.inr ⟨v, post, hrest, hv⟩
  · rintro ⟨pre, f, rest, ts, hargs, hts, hf, hrest⟩
    obtain ⟨st1, h1, _⟩ := parseArgs_ok_iff.1 hts
    subst hargs
    simp only [parseArgs_error_iff]
    rw [parseLoop_append pre _ st1 h1]
    rcases hrest with rfl | ⟨v, post, rfl, hv⟩
    · rcases hf with hf | hf
      · exact ⟨_, parseLoop_line_last hf st1⟩
      · exact ⟨_, parseLoop_column_last hf st1⟩
    · rcases hf with hf | hf
      · rw [parseLoop_line hf, hv]; exact ⟨_, rfl⟩
      · rw [parseLoop_column hf, hv]; exact ⟨_, rfl⟩

/-- C9, as stated, fails: the error for `--line abc` is `invalid line number:
abc`, which does not contain the text `--line`. -/
theorem parseArgs_error_names_flag_counterexample :
    parseArgs ["--line", "abc"] = .error "invalid line number: abc"
      ∧ ¬ ("--line".data <:+: "invalid line number: abc".data) := by
  refine ⟨by decide, by decide⟩

/-- C9, amended. Whenever `parseArgs` returns an error, an option flag `f` at an
argument position caused it: when `f` has no following argument the message is
`no integer argument passed to ` followed by `f`, so it contains the flag as
written; when the following argument `v` is not a valid integer the message is
`invalid line number: ` (for `--line`, `-l`) or `invalid column number: ` (for
`--column`, `-c`) followed by `v`: it names the kind of option and the
offending value. -/
theorem parseArgs_error_message (args : List String) (e : String)
    (herr : parseArgs args = .error e) :
    ∃ pre f rest ts, args = pre ++ f :: rest ∧ parseArgs pre = .ok ts ∧
      ((rest = [] ∧ isOptionFlag f ∧ e = "no integer argument passed to " ++ f
          ∧ f.data <:+: e.data)
        ∨ ∃ v post, rest = v :: post ∧ Atoi v = none ∧
            ((isLineFlag f ∧ e = "invalid line number: " ++ v)
              ∨ (isColumnFlag f ∧ e = "invalid column number: " ++ v))) := by
  obtain ⟨pre, f, rest, hargs, hok, hcase⟩ :=
    parseLoop_error args initState e (parseArgs_error_iff.1 herr)
  obtain ⟨ts, hts⟩ := (scansOk_iff_parseArgs_ok pre).1 hok
  refine ⟨pre, f, rest, ts, hargs, hts, ?_⟩
  rcases hcase with ⟨hrest, hf, he⟩ | hcase
  · refine Or.inl ⟨hrest, hf, he, ?_⟩
    rw [he, String.data_append]
    exact List.IsSuffix.isInfix (List.suffix_append _ _)
  · exact Or.inr hcase

/-- C9, amended, at `a.txt -c`. -/
theorem parseArgs_error_message_witness :
    parseArgs ["a.txt", "-c"] = .error "no integer argument passed to -c"
      ∧ ∃ pre f rest ts, ["a.txt", "-c"] = pre ++ f :: rest ∧ parseArgs pre = .ok ts ∧
          ((rest = [] ∧ isOptionFlag f ∧ "no integer argument passed to -c"
                = "no integer argument passed to " ++ f
              ∧ f.data <:+: "no integer argument passed to -c".data)
            ∨ ∃ v post, rest = v :: post ∧ Atoi v = none ∧
                ((isLineFlag f ∧ "no integer argument passed to -c" = "invalid line number: " ++ v)
                  ∨ (isColumnFlag f
                      ∧ "no integer argument passed to -c" = "invalid column number: " ++ v))) :=
  ⟨by decide, parseArgs_error_message ["a.txt", "-c"] "no integer argument passed to -c" (by decide)⟩

/-! ## The dispatcher against its reference encoding -/

/-- One iteration of the loop appends the segment of the specification. -/
theorem appendTarget_eq_specSegment (args : List String) (t : FileTarget) :
    appendTarget args t = args ++ specSegment t := by
  unfold appendTarget specSegment
  cases t.Line <;> cases t.Column <;> rfl

/-- The loop, started from any argument list. -/
theorem foldl_appendTarget (ts : List FileTarget) (args : List String) :
    ts.foldl appendTarget args = args ++ (ts.map specSegment).flatten := by
  induction ts generalizing args with
  | nil => simp
  | cons t ts ih =>
    rw [List.foldl_cons, ih, appendTarget_eq_specSegment]
    simp

/-- C2. The argument vector `sendToExistingServer` hands to nvim is the
reference encoding: `--server`, the address, then one segment per target in the
order of the targets, `--remote +L:C file` with a line and a column,
`--remote +L file` with a line only, `--remote file` without a line (a column
without a line is dropped). -/
theorem sendToExistingServerArgs_eq_specCommand (ts : List FileTarget) (addr : String) :
    sendToExistingServerArgs ts addr = specCommand addr ts := by
  unfold sendToExistingServerArgs specCommand
  rw [foldl_appendTarget]
  rfl

/-! ## The top level -/

/-- C8. With no file target the program stops before touching the server or
the registry: when `parseArgs` fails or returns no target, `main` exits with
status 1 whatever the registry, the editor and the fuel; all it does is write
one message to stderr and sleep, and the registry is as it was. -/
theorem main_without_target_stops_early (args : List String) (env : Env) (fuel : Nat)
    (w : World)
    (h : (∃ e, parseArgs args = .error e) ∨ parseArgs args = .ok []) :
    ∃ msg w', main args env fuel w = some (1, w')
      ∧ w'.registry = w.registry
      ∧ w'.trace = w.trace ++ [.stderr msg, .sleep 2000] := by
  rcases h with ⟨e, he⟩ | he
  · refine ⟨"error: " ++ e ++ "\n",
      (w.emit (.stderr ("error: " ++ e ++ "\n"))).emit (.sleep 2000), ?_, rfl, ?_⟩
    · unfold main
      rw [he]
    · simp [World.emit]
  · refine ⟨"error: no file arguments provided\n",
      (w.emit (.stderr "error: no file arguments provided\n")).emit (.sleep 2000), ?_, rfl, ?_⟩
    · unfold main
      rw [he]
      rfl
    · simp [World.emit]

/-- C8, at `--line` alone, with a registry that names a server. -/
theorem main_without_target_stops_early_witness :
    ((∃ e, parseArgs ["--line"] = .error e) ∨ parseArgs ["--line"] = .ok [])
      ∧ ∃ msg w', main ["--line"] ⟨fun _ => true, true, 0, "", "", ""⟩ 3 ⟨some "addr", []⟩
            = some (1, w')
          ∧ w'.registry = some "addr"
          ∧ w'.trace = [] ++ [.stderr msg, .sleep 2000] :=
  ⟨Or.inl ⟨"no integer argument passed to --line", by decide⟩,
   main_without_target_stops_early ["--line"] ⟨fun _ => true, true, 0, "", "", ""⟩ 3
    ⟨some "addr", []⟩ (Or.inl ⟨"no integer argument passed to --line", by decide⟩)⟩

/-- C10, evaluated where the code breaks it. When the registry file exists with
empty or whitespace-only content, `isServerRunning` answers not-alive after the
read alone, whatever the probe would say, and leaves the file in place; the
exclusive create of `writeServerAddr` then fails, and `main` exits with status 1
without launching a server or dispatching the target. -/
theorem isServerRunning_blank_registry_stays (alive : Bool) (env : Env) (fuel : Nat)
    (addr : String) (trace : List Event) :
    isServerRunning alive ⟨some "", trace⟩ = ((false, ""), ⟨some "", trace ++ [.readRegistry]⟩)
      ∧ isServerRunning alive ⟨some " \n", trace⟩
          = ((false, ""), ⟨some " \n", trace ++ [.readRegistry]⟩)
      ∧ writeServerAddr env addr ⟨some " \n", trace ++ [.readRegistry]⟩
          = (some env.errExist,
             ⟨some " \n", trace ++ [.readRegistry] ++ [.createRegistry addr]⟩)
      ∧ main ["a.txt"] env fuel ⟨some " \n", []⟩
          = some (1, ⟨some " \n", [.readRegistry, .createRegistry (pipeAddr env),
              .stderr ("error: cannot write server file: " ++ env.errExist ++ "\n")]⟩) :=
  ⟨rfl, rfl, rfl, rfl⟩

end Rider2Nvim
